import Mathlib

/-!
Verification of the hostel ledger core of FreelancerFinanceManager.

The definitions below are a shallow embedding of the Python source
(`src/12.py`, with `src/10.py` / `src/8.py` for the report section):
the Streamlit session-state collections become a `LedgerState` record,
each utility function becomes a pure state-passing Lean function of the
same name, and monetary amounts are modelled as exact rationals.
-/

namespace HostelLedger

/-- Calendar date; only the month matters to the trend report
(`strftime('%b')` in the source depends only on the month). -/
structure Date where
  year : Nat
  month : Nat
  day : Nat
deriving DecidableEq

/-- Revenue entry: Date, Description, Amount (src/12.py `add_revenue`). -/
structure RevenueEntry where
  date : Date
  description : String
  amount : ℚ
deriving DecidableEq

/-- Expense entry: Date, Category, Description, Amount (src/12.py `add_expense`). -/
structure ExpenseEntry where
  date : Date
  category : String
  description : String
  amount : ℚ
deriving DecidableEq

/-- Hostelite record: Room, Rent, Paid (src/12.py `add_hostelite`). -/
structure Hostelite where
  room : String
  rent : ℚ
  paid : ℚ
deriving DecidableEq

/-- Staff record: Position, Expected Payment (src/12.py `add_staff`). -/
structure StaffInfo where
  position : String
  expectedPayment : ℚ
deriving DecidableEq

/-- Staff payment record: Date, Staff, Amount, Method (src/12.py `add_staff_payment`). -/
structure StaffPayment where
  date : Date
  staff : String
  amount : ℚ
  method : String
deriving DecidableEq

/-- The session-state collections of src/12.py: `revenue`, `expenses`,
`hostelites` (a dict, modelled as an insertion-ordered association list
with unique keys), `staff`, and `staff_payments`. -/
structure LedgerState where
  revenue : List RevenueEntry
  expenses : List ExpenseEntry
  hostelites : List (String × Hostelite)
  staff : List (String × StaffInfo)
  staff_payments : List StaffPayment
deriving DecidableEq

/-- The empty session state the script starts from. -/
def initState : LedgerState := ⟨[], [], [], [], []⟩

/-- Python dict assignment `d[k] = v`: replace the value in place if the
key exists (keeping its position), otherwise append at the end. -/
def dictInsert {α : Type} : List (String × α) → String → α → List (String × α)
  | [], k, v => [(k, v)]
  | (k', v') :: t, k, v =>
      if k' = k then (k, v) :: t else (k', v') :: dictInsert t k v

/-- Python dict in-place update `d[k] = f(d[k])` on the (unique) entry
with key `k`; no entry is touched when `k` is absent. -/
def updateValue {α : Type} : List (String × α) → String → (α → α) → List (String × α)
  | [], _, _ => []
  | (k', v') :: t, k, f =>
      if k' = k then (k', f v') :: t else (k', v') :: updateValue t k f

/-- src/12.py `add_revenue`: append a revenue entry. -/
def add_revenue (s : LedgerState) (date : Date) (description : String) (amount : ℚ) :
    LedgerState :=
  { s with revenue := s.revenue ++ [⟨date, description, amount⟩] }

/-- src/12.py `add_expense`: append an expense entry. -/
def add_expense (s : LedgerState) (date : Date) (category description : String)
    (amount : ℚ) : LedgerState :=
  { s with expenses := s.expenses ++ [⟨date, category, description, amount⟩] }

/-- src/12.py `add_hostelite`: `hostelites[name] = {Room, Rent, Paid: 0.0}`.
Note this is a plain dict assignment: it overwrites any existing record. -/
def add_hostelite (s : LedgerState) (name room : String) (rent : ℚ) : LedgerState :=
  { s with hostelites := dictInsert s.hostelites name ⟨room, rent, 0⟩ }

/-- src/12.py `update_hostelite_payment`: add `amount` to the hostelite's
Paid total when the name is registered, otherwise do nothing. -/
def update_hostelite_payment (s : LedgerState) (hostelite : String) (amount : ℚ) :
    LedgerState :=
  if (s.hostelites.lookup hostelite).isSome then
    { s with hostelites :=
        updateValue s.hostelites hostelite (fun h => { h with paid := h.paid + amount }) }
  else s

/-- src/12.py `add_payment`: append a revenue entry described as
`"Rent Payment from {hostelite}"`, then bump the hostelite's Paid total.
The payment method is accepted but not stored, exactly as in the source. -/
def add_payment (s : LedgerState) (date : Date) (hostelite : String) (amount : ℚ)
    (method : String) : LedgerState :=
  update_hostelite_payment
    (add_revenue s date ("Rent Payment from " ++ hostelite) amount) hostelite amount

/-- src/12.py `process_payment`: record the payment and report `True` when
the hostelite is registered, otherwise leave the state alone and report
`False`. -/
def process_payment (s : LedgerState) (hostelite : String) (amount : ℚ)
    (payment_date : Date) (payment_method : String) : Bool × LedgerState :=
  if (s.hostelites.lookup hostelite).isSome then
    (true, add_payment s payment_date hostelite amount payment_method)
  else (false, s)

/-- src/12.py `add_staff`: dict assignment into the staff collection. -/
def add_staff (s : LedgerState) (name position : String) (expected_payment : ℚ) :
    LedgerState :=
  { s with staff := dictInsert s.staff name ⟨position, expected_payment⟩ }

/-- src/12.py `add_staff_payment`: append a staff payment record; no
validation of the staff name is performed. -/
def add_staff_payment (s : LedgerState) (date : Date) (name : String) (amount : ℚ)
    (method : String) : LedgerState :=
  { s with staff_payments := s.staff_payments ++ [⟨date, name, amount, method⟩] }

/-- Total of all revenue amounts (src/12.py `update_balance_sheet`, first sum). -/
def total_revenue (s : LedgerState) : ℚ := (s.revenue.map (·.amount)).sum

/-- Total of all expense amounts (src/12.py `update_balance_sheet`, second sum). -/
def total_expenses (s : LedgerState) : ℚ := (s.expenses.map (·.amount)).sum

/-- The balance-sheet triple of src/12.py. -/
structure BalanceSheet where
  assets : ℚ
  liabilities : ℚ
  equity : ℚ
deriving DecidableEq

/-- src/12.py `update_balance_sheet`: Assets = total revenue,
Liabilities = total expenses, Equity = revenue − expenses. -/
def update_balance_sheet (s : LedgerState) : BalanceSheet :=
  ⟨total_revenue s, total_expenses s, total_revenue s - total_expenses s⟩

/-- One row of src/12.py `compute_payment_details`. -/
structure PaymentRow where
  hostelite : String
  room : String
  requiredRent : ℚ
  amountPaid : ℚ
  amountDue : ℚ
  amountOverpaid : ℚ
deriving DecidableEq

/-- src/12.py `compute_payment_details`: one row per registered hostelite,
with `due = max(rent - paid, 0)` and `overpaid = max(paid - rent, 0)`. -/
def compute_payment_details (s : LedgerState) : List PaymentRow :=
  s.hostelites.map (fun p =>
    ⟨p.1, p.2.room, p.2.rent, p.2.paid,
      max (p.2.rent - p.2.paid) 0, max (p.2.paid - p.2.rent) 0⟩)

/-- One row of src/12.py `compute_staff_payments`. -/
structure StaffRow where
  staff : String
  expectedPayment : ℚ
  amountPaid : ℚ
  amountDue : ℚ
  amountOverpaid : ℚ
deriving DecidableEq

/-- One step of the payment loop in src/12.py `compute_staff_payments`:
`if name in staff_data: staff_data[name]["Paid"] += payment["Amount"]`.
Each accumulator entry is (name, (expected, paid)). -/
def staffFoldStep (acc : List (String × ℚ × ℚ)) (pay : StaffPayment) :
    List (String × ℚ × ℚ) :=
  if (acc.lookup pay.staff).isSome then
    updateValue acc pay.staff (fun q => (q.1, q.2 + pay.amount))
  else acc

/-- src/12.py `compute_staff_payments`: build a dict from the registered
staff with Paid = 0, fold every payment record into the matching entry
(records whose Staff key is unregistered are skipped), then emit one row
per staff member with the `max` due/overpaid figures. -/
def compute_staff_payments (s : LedgerState) : List StaffRow :=
  ((s.staff_payments.foldl staffFoldStep
      (s.staff.map (fun p => (p.1, p.2.expectedPayment, 0)))).map
    (fun p => ⟨p.1, p.2.1, p.2.2, max (p.2.1 - p.2.2) 0, max (p.2.2 - p.2.1) 0⟩))

/-- One row of src/12.py `get_hostelite_list`. -/
structure HostelRow where
  name : String
  room : String
  monthlyRent : ℚ
  amountPaid : ℚ
  amountDue : ℚ
  paymentStatus : String
deriving DecidableEq

/-- src/12.py `get_hostelite_list`: one row per hostelite with
`"Paid" if Paid >= Rent else "Partial" if Paid > 0 else "Unpaid"`. -/
def get_hostelite_list (s : LedgerState) : List HostelRow :=
  s.hostelites.map (fun p =>
    ⟨p.1, p.2.room, p.2.rent, p.2.paid, max (p.2.rent - p.2.paid) 0,
      if p.2.rent ≤ p.2.paid then "Paid" else if 0 < p.2.paid then "Partial" else "Unpaid"⟩)

/-- Lexicographic comparison of character lists, mirroring Python's
string ordering used by the pandas group-key sort. -/
def charListLe : List Char → List Char → Bool
  | [], _ => true
  | _ :: _, [] => false
  | a :: as, b :: bs => if a < b then true else if b < a then false else charListLe as bs

/-- String comparison as Python performs it (by code points). -/
def strLe (a b : String) : Bool := charListLe a.toList b.toList

/-- Insert a key into an already sorted key list. -/
def sortedInsert (k : String) : List String → List String
  | [] => [k]
  | x :: xs => if strLe k x then k :: x :: xs else x :: sortedInsert k xs

/-- Sort a key list ascending (insertion sort). -/
def sortKeys (l : List String) : List String := l.foldr sortedInsert []

/-- Sum of the values attached to key `k`. -/
def sumFor (prs : List (String × ℚ)) (k : String) : ℚ :=
  ((prs.filter (fun p => p.1 == k)).map (·.2)).sum

/-- Remove duplicate keys, keeping the first occurrence of each. -/
def dedupKeys (l : List String) : List String :=
  l.foldl (fun acc k => if k ∈ acc then acc else acc ++ [k]) []

/-- The distinct keys of `prs`, sorted ascending — pandas `groupby`
emits its groups in sorted key order (the default `sort=True`). -/
def groupKeys (prs : List (String × ℚ)) : List String :=
  sortKeys (dedupKeys (prs.map (·.1)))

/-- pandas `groupby(key)[value].sum()`: one (key, sum) pair per distinct
key, keys sorted ascending. -/
def groupbySum (prs : List (String × ℚ)) : List (String × ℚ) :=
  (groupKeys prs).map (fun k => (k, sumFor prs k))

/-- pandas `.reindex(labels, fill_value=0)`: picks, for each label in
order, the grouped sum, defaulting to 0 for absent labels. -/
def reindexSum (prs : List (String × ℚ)) (labels : List String) : List (String × ℚ) :=
  labels.map (fun l => (l, ((groupbySum prs).lookup l).getD 0))

/-- src/10.py Reports section: `df_exp.groupby("Category")["Amount"].sum()`. -/
def exp_summary (expenses : List ExpenseEntry) : List (String × ℚ) :=
  groupbySum (expenses.map (fun e => (e.category, e.amount)))

/-- The twelve month abbreviations produced by `strftime('%b')`. -/
def monthNames : List String :=
  ["Jan", "Feb", "Mar", "Apr", "May", "Jun", "Jul", "Aug", "Sep", "Oct", "Nov", "Dec"]

/-- Month abbreviation of a month number (1–12); out-of-range month
numbers (impossible for the `datetime.date` values the source feeds to
`strftime('%b')`) map to the empty string, which matches no label. -/
def monthAbbr (m : Nat) : String :=
  if m = 0 then "" else monthNames.getD (m - 1) ""

/-- The six fixed labels the dashboard reindexes on. -/
def monthLabels : List String := ["Jan", "Feb", "Mar", "Apr", "May", "Jun"]

/-- One row of src/12.py `compute_monthly_trends`. -/
structure TrendRow where
  month : String
  revenue : ℚ
  expenses : ℚ
deriving DecidableEq

/-- The `monthly_rev` series of src/12.py `compute_monthly_trends`:
group the revenue entries by month abbreviation, sum, and reindex on the
six fixed labels with fill 0; an all-zero series when there is no
revenue. -/
def monthlyRevSeries (s : LedgerState) : List (String × ℚ) :=
  if s.revenue.isEmpty then monthLabels.map (fun l => (l, (0 : ℚ)))
  else reindexSum (s.revenue.map (fun e => (monthAbbr e.date.month, e.amount))) monthLabels

/-- The `monthly_exp` series of src/12.py `compute_monthly_trends`. -/
def monthlyExpSeries (s : LedgerState) : List (String × ℚ) :=
  if s.expenses.isEmpty then monthLabels.map (fun l => (l, (0 : ℚ)))
  else reindexSum (s.expenses.map (fun e => (monthAbbr e.date.month, e.amount))) monthLabels

/-- src/12.py `compute_monthly_trends`: zip the two monthly series into
one row per label. -/
def compute_monthly_trends (s : LedgerState) : List TrendRow :=
  ((monthlyRevSeries s).zip (monthlyExpSeries s)).map (fun p => ⟨p.1.1, p.1.2, p.2.2⟩)

/-- The mutation entry points reachable from the UI forms of src/12.py. -/
inductive Op where
  | opRevenue (date : Date) (description : String) (amount : ℚ)
  | opExpense (date : Date) (category description : String) (amount : ℚ)
  | opHostelite (name room : String) (rent : ℚ)
  | opPayment (hostelite : String) (amount : ℚ) (date : Date) (method : String)
  | opStaff (name position : String) (expected : ℚ)
  | opStaffPayment (date : Date) (name : String) (amount : ℚ) (method : String)

/-- Apply one mutation to the session state. -/
def applyOp (s : LedgerState) : Op → LedgerState
  | .opRevenue d ds a => add_revenue s d ds a
  | .opExpense d c ds a => add_expense s d c ds a
  | .opHostelite n r rent => add_hostelite s n r rent
  | .opPayment h a d m => (process_payment s h a d m).2
  | .opStaff n p e => add_staff s n p e
  | .opStaffPayment d n a m => add_staff_payment s d n a m

/-- Run a sequence of mutations from the empty initial state; the
reachable ledger states are exactly the values of `run`. -/
def run (ops : List Op) : LedgerState := ops.foldl applyOp initState

/-- Reference definition of the amount due (spec §3). -/
def dueRef (required paid : ℚ) : ℚ := max (required - paid) 0

/-- Reference definition of the amount overpaid (spec §3). -/
def overpaidRef (required paid : ℚ) : ℚ := max (paid - required) 0

/-- Modelled from the spec: the Rent Forecaster component (spec §4.3) has
no implementation under src/ (src/12.py imports `LinearRegression` but
never calls it), so its closed-form OLS fit is modelled from the spec's
own formulas.  Mean of a list of rationals. -/
def olsMean (l : List ℚ) : ℚ := l.sum / l.length

/-- Modelled from the spec: covariance of the month/rent coordinates of
the history points. -/
def olsCovariance (pts : List (ℚ × ℚ)) : ℚ :=
  ((pts.map (fun p =>
    (p.1 - olsMean (pts.map (·.1))) * (p.2 - olsMean (pts.map (·.2))))).sum) / pts.length

/-- Modelled from the spec: variance of the month coordinates. -/
def olsVariance (pts : List (ℚ × ℚ)) : ℚ :=
  ((pts.map (fun p =>
    (p.1 - olsMean (pts.map (·.1))) * (p.1 - olsMean (pts.map (·.1))))).sum) / pts.length

/-- Modelled from the spec: closed-form OLS fit — slope =
covariance(month, rent)/variance(month), intercept = mean(rent) −
slope*mean(month); fewer than 2 points is `InsufficientData` (`none`). -/
def olsFit (pts : List (ℚ × ℚ)) : Option (ℚ × ℚ) :=
  if pts.length < 2 then none
  else
    let slope := olsCovariance pts / olsVariance pts
    some (slope, olsMean (pts.map (·.2)) - slope * olsMean (pts.map (·.1)))

/-- Modelled from the spec: predict `slope*month + intercept` for each
requested month, preserving input order. -/
def olsPredict (slope intercept : ℚ) (ms : List ℚ) : List ℚ :=
  ms.map (fun m => slope * m + intercept)

/-! ### Association-list lemmas -/

theorem lookup_cons {α : Type} (k : String) (p : String × α) (t : List (String × α)) :
    ((p :: t).lookup k) = if k = p.1 then some p.2 else t.lookup k := by
  by_cases h : k = p.1
  · simp [List.lookup, h]
  · have hb : (k == p.1) = false := beq_eq_false_iff_ne.mpr h
    simp [List.lookup, hb, h]

theorem lookup_dictInsert_self {α : Type} (l : List (String × α)) (k : String) (v : α) :
    (dictInsert l k v).lookup k = some v := by
  induction l with
  | nil => simp [dictInsert, lookup_cons]
  | cons p t ih =>
      by_cases h : p.1 = k
      · simp [dictInsert, h, lookup_cons]
      · simp [dictInsert, h, lookup_cons, Ne.symm h, ih]

theorem lookup_dictInsert_ne {α : Type} (l : List (String × α)) (k k' : String) (v : α)
    (h : k' ≠ k) : (dictInsert l k v).lookup k' = l.lookup k' := by
  induction l with
  | nil => simp [dictInsert, lookup_cons, h]
  | cons p t ih =>
      by_cases hp : p.1 = k
      · subst hp
        simp [dictInsert, lookup_cons, h]
      · by_cases hk : k' = p.1 <;> simp [dictInsert, hp, lookup_cons, hk, ih]

theorem lookup_updateValue_self {α : Type} (l : List (String × α)) (k : String)
    (f : α → α) : (updateValue l k f).lookup k = (l.lookup k).map f := by
  induction l with
  | nil => simp [updateValue]
  | cons p t ih =>
      by_cases h : p.1 = k
      · simp [updateValue, h, lookup_cons]
      · simp [updateValue, h, lookup_cons, Ne.symm h, ih]

theorem lookup_updateValue_ne {α : Type} (l : List (String × α)) (k k' : String)
    (f : α → α) (h : k' ≠ k) : (updateValue l k f).lookup k' = l.lookup k' := by
  induction l with
  | nil => simp [updateValue]
  | cons p t ih =>
      by_cases hp : p.1 = k
      · subst hp
        simp [updateValue, lookup_cons, h]
      · by_cases hk : k' = p.1 <;> simp [updateValue, hp, lookup_cons, hk, ih]

theorem updateValue_keys {α : Type} (l : List (String × α)) (k : String) (f : α → α) :
    (updateValue l k f).map (·.1) = l.map (·.1) := by
  induction l with
  | nil => rfl
  | cons p t ih =>
      by_cases h : p.1 = k <;> simp [updateValue, h, ih]

theorem lookup_eq_none_of_not_mem {α : Type} (l : List (String × α)) (k : String)
    (h : k ∉ l.map (·.1)) : l.lookup k = none := by
  induction l with
  | nil => rfl
  | cons p t ih =>
      simp only [List.map_cons, List.mem_cons] at h
      push_neg at h
      simp [lookup_cons, h.1, ih h.2]

/-! ### Due/overpaid arithmetic -/

theorem dueRef_pos_overpaidRef_eq_zero (required paid : ℚ) (h : 0 < dueRef required paid) :
    overpaidRef required paid = 0 := by
  have hlt : paid < required := by
    by_contra hc
    push_neg at hc
    have h0 : dueRef required paid = 0 := max_eq_right (by simp [sub_nonpos]; linarith)
    rw [h0] at h
    exact lt_irrefl 0 h
  exact max_eq_right (by linarith)

theorem overpaidRef_pos_dueRef_eq_zero (required paid : ℚ)
    (h : 0 < overpaidRef required paid) : dueRef required paid = 0 := by
  have hlt : required < paid := by
    by_contra hc
    push_neg at hc
    have h0 : overpaidRef required paid = 0 := max_eq_right (by linarith)
    rw [h0] at h
    exact lt_irrefl 0 h
  exact max_eq_right (by linarith)

/-- Every row of `compute_payment_details` carries the reference
due/overpaid figures of its own rent and paid columns. -/
theorem payment_rows_spec (s : LedgerState) :
    ∀ r ∈ compute_payment_details s,
      r.amountDue = dueRef r.requiredRent r.amountPaid ∧
      r.amountOverpaid = overpaidRef r.requiredRent r.amountPaid := by
  intro r hr
  simp only [compute_payment_details, List.mem_map] at hr
  obtain ⟨p, _, rfl⟩ := hr
  exact ⟨rfl, rfl⟩

/-- Every row of `compute_staff_payments` carries the reference
due/overpaid figures of its own expected-payment and paid columns. -/
theorem staff_rows_spec (s : LedgerState) :
    ∀ r ∈ compute_staff_payments s,
      r.amountDue = dueRef r.expectedPayment r.amountPaid ∧
      r.amountOverpaid = overpaidRef r.expectedPayment r.amountPaid := by
  intro r hr
  simp only [compute_staff_payments, List.mem_map] at hr
  obtain ⟨p, _, rfl⟩ := hr
  exact ⟨rfl, rfl⟩

/-! ### Concrete fixture states -/

/-- A fixed date used by the concrete fixtures. -/
def dW : Date := ⟨2025, 1, 5⟩

/-- Fixture: one hostelite with rent 5000 and 3000 already paid, one
staff member expecting 2000 with a 2500 payment on record. -/
def sW1 : LedgerState :=
  ⟨[], [], [("A", ⟨"101", 5000, 3000⟩)], [("S", ⟨"Cook", 2000⟩)],
    [⟨⟨2025, 1, 6⟩, "S", 2500, "Cash"⟩]⟩

/-! ### Claim C1 -/

/-- Claim C1: for every registered hostelite and staff member, the
derived figures equal the reference definitions
`due = max(required − paid, 0)` and `overpaid = max(paid − required, 0)`,
where required is the rent (resp. expected payment) column and paid the
cumulative paid column of the row. -/
theorem claim1_payment_figures (s : LedgerState) :
    (∀ r ∈ compute_payment_details s,
      r.amountDue = dueRef r.requiredRent r.amountPaid ∧
      r.amountOverpaid = overpaidRef r.requiredRent r.amountPaid) ∧
    (∀ r ∈ compute_staff_payments s,
      r.amountDue = dueRef r.expectedPayment r.amountPaid ∧
      r.amountOverpaid = overpaidRef r.expectedPayment r.amountPaid) :=
  ⟨payment_rows_spec s, staff_rows_spec s⟩

/-- Claim C1 witness at the fixture state. -/
theorem claim1_witness :
    (⟨"A", "101", 5000, 3000, 2000, 0⟩ : PaymentRow).amountDue = dueRef 5000 3000 :=
  ((claim1_payment_figures sW1).1 ⟨"A", "101", 5000, 3000, 2000, 0⟩
    (by norm_num [compute_payment_details, sW1, max_def])).1

/-! ### Claim C2 -/

/-- Claim C2: in every reachable ledger state, the due and overpaid
figures of every hostelite row and every staff row are mutually
exclusive: a positive due forces overpaid = 0 and vice versa. -/
theorem claim2_mutual_exclusion (ops : List Op) :
    (∀ r ∈ compute_payment_details (run ops),
      (0 < r.amountDue → r.amountOverpaid = 0) ∧
      (0 < r.amountOverpaid → r.amountDue = 0)) ∧
    (∀ r ∈ compute_staff_payments (run ops),
      (0 < r.amountDue → r.amountOverpaid = 0) ∧
      (0 < r.amountOverpaid → r.amountDue = 0)) := by
  constructor
  · intro r hr
    obtain ⟨h1, h2⟩ := payment_rows_spec (run ops) r hr
    rw [h1, h2]
    exact ⟨dueRef_pos_overpaidRef_eq_zero _ _, overpaidRef_pos_dueRef_eq_zero _ _⟩
  · intro r hr
    obtain ⟨h1, h2⟩ := staff_rows_spec (run ops) r hr
    rw [h1, h2]
    exact ⟨dueRef_pos_overpaidRef_eq_zero _ _, overpaidRef_pos_dueRef_eq_zero _ _⟩

/-- The single registration used by the Claim C2 witness. -/
def opsW2 : List Op := [.opHostelite "A" "101" 5000]

/-- Claim C2 witness: in the reachable state with one unpaid hostelite,
the positive due forces overpaid = 0. -/
theorem claim2_witness :
    (⟨"A", "101", 5000, 0, 5000, 0⟩ : PaymentRow).amountOverpaid = 0 :=
  (((claim2_mutual_exclusion opsW2).1 ⟨"A", "101", 5000, 0, 5000, 0⟩
      (by norm_num [opsW2, run, applyOp, add_hostelite, initState, dictInsert,
        compute_payment_details, max_def])).1) (by norm_num)

/-! ### Claim C4 (corrected) -/

/-- Register "A", pay 100 against it. -/
def opsC4a : List Op :=
  [.opHostelite "A" "101" 5000, .opPayment "A" 100 dW "Cash"]

/-- Continuation: register "A" again with a new room and rent. -/
def opsC4b : List Op := opsC4a ++ [.opHostelite "A" "102" 6000]

/-- Claim C4 counterexample: re-registering an existing hostelite does
not fail and does not leave the record unchanged — `add_hostelite` is a
plain dict assignment, so the second registration overwrites the record
and resets the cumulative Paid amount from 100 back to 0. -/
theorem claim4_counterexample :
    (run opsC4a).hostelites.lookup "A" = some ⟨"101", 5000, 100⟩ ∧
    (run opsC4b).hostelites.lookup "A" = some ⟨"102", 6000, 0⟩ ∧
    some (⟨"102", 6000, 0⟩ : Hostelite) ≠ some (⟨"101", 5000, 100⟩ : Hostelite) := by
  refine ⟨?_, ?_, ?_⟩
  · norm_num [opsC4a, run, applyOp, add_hostelite, initState, dictInsert,
      process_payment, add_payment, add_revenue, update_hostelite_payment,
      updateValue, lookup_cons]
  · norm_num [opsC4b, opsC4a, run, applyOp, add_hostelite, initState, dictInsert,
      process_payment, add_payment, add_revenue, update_hostelite_payment,
      updateValue, lookup_cons]
  · simp only [ne_eq, Option.some.injEq, Hostelite.mk.injEq]
    norm_num

/-- Claim C4 amended: calling `add_hostelite` with an already-registered
name silently overwrites the record, installing the new room and rent
with Paid reset to 0 (no `DuplicateKey` failure exists in the code);
every other hostelite's record is untouched. -/
theorem claim4_amended (s : LedgerState) (name room : String) (rent : ℚ) :
    (add_hostelite s name room rent).hostelites.lookup name = some ⟨room, rent, 0⟩ ∧
    ∀ other, other ≠ name →
      (add_hostelite s name room rent).hostelites.lookup other
        = s.hostelites.lookup other :=
  ⟨lookup_dictInsert_self s.hostelites name ⟨room, rent, 0⟩,
    fun other h => lookup_dictInsert_ne s.hostelites name other ⟨room, rent, 0⟩ h⟩

/-- Claim C4 witness at a concrete state. -/
theorem claim4_witness :
    (add_hostelite initState "A" "101" 5000).hostelites.lookup "A"
        = some ⟨"101", 5000, 0⟩ ∧
    (add_hostelite initState "A" "101" 5000).hostelites.lookup "B"
        = initState.hostelites.lookup "B" :=
  ⟨(claim4_amended initState "A" "101" 5000).1,
    (claim4_amended initState "A" "101" 5000).2 "B" (by decide)⟩

/-! ### Claim C5 -/

/-- Claim C5: `process_payment` on an unregistered name reports failure
and leaves the store unchanged; on a registered name it reports success,
appends exactly one revenue entry tagged `"Rent Payment from {name}"`,
adds the amount to that hostelite's cumulative Paid (all other
hostelites and the expense list untouched). -/
theorem claim5_process_payment (s : LedgerState) (h : String) (a : ℚ) (d : Date)
    (m : String) :
    (s.hostelites.lookup h = none → process_payment s h a d m = (false, s)) ∧
    ∀ det, s.hostelites.lookup h = some det →
      (process_payment s h a d m).1 = true ∧
      (process_payment s h a d m).2.revenue
        = s.revenue ++ [⟨d, "Rent Payment from " ++ h, a⟩] ∧
      (process_payment s h a d m).2.hostelites.lookup h
        = some ⟨det.room, det.rent, det.paid + a⟩ ∧
      (∀ other, other ≠ h →
        (process_payment s h a d m).2.hostelites.lookup other
          = s.hostelites.lookup other) ∧
      (process_payment s h a d m).2.expenses = s.expenses := by
  constructor
  · intro hn
    simp [process_payment, hn]
  · intro det hdet
    have hs : (s.hostelites.lookup h).isSome = true := by rw [hdet]; rfl
    refine ⟨?_, ?_, ?_, ?_, ?_⟩
    · simp [process_payment, hs]
    · simp [process_payment, hs, add_payment, add_revenue, update_hostelite_payment]
    · simp only [process_payment, hs, if_pos, add_payment, add_revenue,
        update_hostelite_payment]
      simp [hs, lookup_updateValue_self, hdet]
    · intro other ho
      simp only [process_payment, hs, if_pos, add_payment, add_revenue,
        update_hostelite_payment]
      simp [hs, lookup_updateValue_ne _ _ _ _ ho]
    · simp [process_payment, hs, add_payment, add_revenue, update_hostelite_payment]

/-- Fixture for the Claim C5 witness: one hostelite, nothing paid yet. -/
def sW5 : LedgerState := ⟨[], [], [("A", ⟨"101", 5000, 0⟩)], [], []⟩

/-- Claim C5 witness: unknown name fails and changes nothing; known name
has its Paid bumped. -/
theorem claim5_witness :
    process_payment sW5 "B" 7 dW "Cash" = (false, sW5) ∧
    (process_payment sW5 "A" 7 dW "Cash").2.hostelites.lookup "A"
      = some ⟨"101", 5000, 0 + 7⟩ :=
  ⟨(claim5_process_payment sW5 "B" 7 dW "Cash").1 (by simp [sW5, lookup_cons]),
    ((claim5_process_payment sW5 "A" 7 dW "Cash").2 ⟨"101", 5000, 0⟩
      (by simp [sW5, lookup_cons])).2.2.1⟩

/-! ### Claim C6 -/

/-- The mutation is a `record_revenue` or `record_expense` call with a
non-negative amount. -/
def revExpNonneg : Op → Prop
  | .opRevenue _ _ a => 0 ≤ a
  | .opExpense _ _ _ a => 0 ≤ a
  | _ => False

/-- Claim C6: after every sequence of revenue/expense recordings with
non-negative amounts, the balance sheet reads Assets = total revenue,
Liabilities = total expenses, Equity = revenue − expenses, and hence
`total_revenue − total_expenses = equity`. -/
theorem claim6_balance_sheet (ops : List Op) (hops : ∀ op ∈ ops, revExpNonneg op) :
    update_balance_sheet (run ops) =
      ⟨total_revenue (run ops), total_expenses (run ops),
        total_revenue (run ops) - total_expenses (run ops)⟩ ∧
    total_revenue (run ops) - total_expenses (run ops)
      = (update_balance_sheet (run ops)).equity :=
  ⟨rfl, rfl⟩

/-- The revenue/expense sequence used by the Claim C6 witness. -/
def opsW6 : List Op := [.opRevenue dW "rent income" 100, .opExpense dW "Mess" "food" 40]

/-- Claim C6 witness at a concrete sequence. -/
theorem claim6_witness :
    total_revenue (run opsW6) - total_expenses (run opsW6)
      = (update_balance_sheet (run opsW6)).equity :=
  (claim6_balance_sheet opsW6 (by simp [opsW6, revExpNonneg])).2

/-! ### Claim C3 (corrected) -/

/-- Register "A" with rent 5000. -/
def opsC3a : List Op := [.opHostelite "A" "101" 5000]

/-- Continuation: pay exactly 5000. -/
def opsC3b : List Op := opsC3a ++ [.opPayment "A" 5000 dW "Cash"]

/-- Alternative continuation: pay only 2000 of the 5000 rent. -/
def opsC3p : List Op := opsC3a ++ [.opPayment "A" 2000 dW "Cash"]

/-- Continuation: pay 1000 more. -/
def opsC3c : List Op := opsC3b ++ [.opPayment "A" 1000 ⟨2025, 2, 5⟩ "Cash"]

/-- Claim C3 counterexample: after registering with rent 5000, paying
5000 and then 1000 more, `get_hostelite_list` classifies the resident as
"Paid", not "Overpaid" — the code has no Overpaid payment state
(`"Paid" if Paid >= Rent else ...`). -/
theorem claim3_counterexample :
    get_hostelite_list (run opsC3c) = [⟨"A", "101", 5000, 6000, 0, "Paid"⟩] ∧
    ("Paid" : String) ≠ "Overpaid" := by
  constructor
  · norm_num [opsC3c, opsC3b, opsC3a, run, applyOp, add_hostelite, initState,
      dictInsert, process_payment, add_payment, add_revenue,
      update_hostelite_payment, updateValue, lookup_cons, get_hostelite_list,
      max_def]
  · simp

/-- Claim C3 amended: for every resident row of every ledger state, the
payment state is three-valued — "Paid" when paid ≥ rent (overpayment
included; the code has no Overpaid state), "Partial" when
0 < paid < rent, "Unpaid" otherwise.  The boundary scenario yields state
Unpaid with due 5000, a partial payment of 2000 yields state Partial
with due 3000, paying the rent in full yields state Paid with due 0 and
overpaid 0, and after the extra 1000 the state remains "Paid" with due 0
while `compute_payment_details` reports the overpayment of 1000. -/
theorem claim3_amended :
    (∀ (s : LedgerState), ∀ r ∈ get_hostelite_list s,
      (r.monthlyRent ≤ r.amountPaid → r.paymentStatus = "Paid") ∧
      (0 < r.amountPaid ∧ r.amountPaid < r.monthlyRent → r.paymentStatus = "Partial") ∧
      (r.amountPaid ≤ 0 ∧ r.amountPaid < r.monthlyRent → r.paymentStatus = "Unpaid")) ∧
    get_hostelite_list (run opsC3a) = [⟨"A", "101", 5000, 0, 5000, "Unpaid"⟩] ∧
    get_hostelite_list (run opsC3p) = [⟨"A", "101", 5000, 2000, 3000, "Partial"⟩] ∧
    get_hostelite_list (run opsC3b) = [⟨"A", "101", 5000, 5000, 0, "Paid"⟩] ∧
    compute_payment_details (run opsC3b) = [⟨"A", "101", 5000, 5000, 0, 0⟩] ∧
    get_hostelite_list (run opsC3c) = [⟨"A", "101", 5000, 6000, 0, "Paid"⟩] ∧
    compute_payment_details (run opsC3c) = [⟨"A", "101", 5000, 6000, 0, 1000⟩] := by
  refine ⟨?_, ?_, ?_, ?_, ?_, ?_, ?_⟩
  · intro s r hr
    simp only [get_hostelite_list, List.mem_map] at hr
    obtain ⟨p, _, rfl⟩ := hr
    refine ⟨fun h => ?_, fun h => ?_, fun h => ?_⟩
    · show (if p.2.rent ≤ p.2.paid then "Paid"
          else if 0 < p.2.paid then "Partial" else "Unpaid") = "Paid"
      rw [if_pos h]
    · show (if p.2.rent ≤ p.2.paid then "Paid"
          else if 0 < p.2.paid then "Partial" else "Unpaid") = "Partial"
      rw [if_neg (not_le.mpr h.2), if_pos h.1]
    · show (if p.2.rent ≤ p.2.paid then "Paid"
          else if 0 < p.2.paid then "Partial" else "Unpaid") = "Unpaid"
      rw [if_neg (not_le.mpr h.2), if_neg (not_lt.mpr h.1)]
  all_goals
    norm_num [opsC3c, opsC3b, opsC3p, opsC3a, run, applyOp, add_hostelite,
      initState, dictInsert, process_payment, add_payment, add_revenue,
      update_hostelite_payment, updateValue, lookup_cons, get_hostelite_list,
      compute_payment_details, max_def]

/-- Claim C3 witness: the general classification rule applied at the
partially paid reachable state classifies the resident as "Partial". -/
theorem claim3_witness :
    (⟨"A", "101", 5000, 2000, 3000, "Partial"⟩ : HostelRow).paymentStatus = "Partial" :=
  ((claim3_amended.1 (run opsC3p) ⟨"A", "101", 5000, 2000, 3000, "Partial"⟩
      (by norm_num [opsC3p, opsC3a, run, applyOp, add_hostelite, initState,
        dictInsert, process_payment, add_payment, add_revenue,
        update_hostelite_payment, updateValue, lookup_cons, get_hostelite_list,
        max_def])).2.1) (by norm_num)

/-! ### Claim C10 -/

/-- The payment fold of `compute_staff_payments` never changes the key
column of the accumulator. -/
theorem staff_fold_keys (pays : List StaffPayment) (ini : List (String × ℚ × ℚ)) :
    (pays.foldl staffFoldStep ini).map (·.1) = ini.map (·.1) := by
  induction pays generalizing ini with
  | nil => rfl
  | cons p t ih =>
      rw [List.foldl_cons, ih]
      by_cases h : ((ini.lookup p.staff)).isSome = true <;>
        simp [staffFoldStep, h, updateValue_keys]

/-- Claim C10: `add_staff_payment` accepts a record for any staff name
(it is total and just appends the record), and a payment recorded
against an unregistered name contributes to no staff member's figures:
`compute_staff_payments` is unchanged by it. -/
theorem claim10_unregistered_staff_payment (s : LedgerState) (d : Date) (name : String)
    (amt : ℚ) (meth : String) (h : name ∉ s.staff.map (·.1)) :
    (add_staff_payment s d name amt meth).staff_payments
      = s.staff_payments ++ [⟨d, name, amt, meth⟩] ∧
    compute_staff_payments (add_staff_payment s d name amt meth)
      = compute_staff_payments s := by
  refine ⟨rfl, ?_⟩
  simp only [compute_staff_payments, add_staff_payment]
  rw [List.foldl_append]
  have hkeys : (s.staff_payments.foldl staffFoldStep
      (s.staff.map (fun p => (p.1, p.2.expectedPayment, 0)))).map (·.1)
      = s.staff.map (·.1) := by
    rw [staff_fold_keys, List.map_map]
    rfl
  have hnone : ((s.staff_payments.foldl staffFoldStep
      (s.staff.map (fun p => (p.1, p.2.expectedPayment, 0)))).lookup name) = none := by
    apply lookup_eq_none_of_not_mem
    rw [hkeys]
    exact h
  simp [staffFoldStep, hnone]

/-- Fixture for the Claim C10 witness: one registered staff member "S". -/
def sW10 : LedgerState := ⟨[], [], [], [("S", ⟨"Cook", 2000⟩)], []⟩

/-- Claim C10 witness: a payment recorded for the unregistered name "T"
leaves the staff payment report unchanged. -/
theorem claim10_witness :
    compute_staff_payments (add_staff_payment sW10 dW "T" 300 "Cash")
      = compute_staff_payments sW10 :=
  (claim10_unregistered_staff_payment sW10 dW "T" 300 "Cash" (by simp [sW10])).2

/-! ### Claim C8 (corrected) -/

/-- The grouped sum over a keyed projection of a list is the sum of
the projected amounts of the matching elements. -/
theorem sumFor_map {α : Type} (l : List α) (key : α → String) (amt : α → ℚ)
    (k : String) :
    sumFor (l.map (fun e => (key e, amt e))) k
      = ((l.filter (fun e => key e == k)).map amt).sum := by
  induction l with
  | nil => rfl
  | cons e t ih =>
      by_cases h : (key e == k) = true <;>
        simp [sumFor, List.filter_cons, h] <;>
        simpa [sumFor] using ih

theorem mem_dedupKeys (a : String) (l : List String) : a ∈ dedupKeys l ↔ a ∈ l := by
  have key : ∀ (l : List String) (acc : List String),
      a ∈ l.foldl (fun acc k => if k ∈ acc then acc else acc ++ [k]) acc ↔
        a ∈ acc ∨ a ∈ l := by
    intro l
    induction l with
    | nil => simp
    | cons x xs ih =>
        intro acc
        by_cases h : x ∈ acc
        · rw [List.foldl_cons, if_pos h, ih]
          constructor
          · rintro (ha | ha)
            · exact Or.inl ha
            · exact Or.inr (List.mem_cons_of_mem x ha)
          · rintro (ha | ha)
            · exact Or.inl ha
            · rcases List.mem_cons.mp ha with rfl | ha
              · exact Or.inl h
              · exact Or.inr ha
        · rw [List.foldl_cons, if_neg h, ih]
          simp [or_assoc]
  unfold dedupKeys
  rw [key]
  simp

theorem mem_sortedInsert (k a : String) (l : List String) :
    a ∈ sortedInsert k l ↔ a = k ∨ a ∈ l := by
  induction l with
  | nil => simp [sortedInsert]
  | cons x xs ih =>
      by_cases h : strLe k x = true
      · simp [sortedInsert, h]
      · simp [sortedInsert, h, ih]
        tauto

theorem mem_sortKeys (a : String) (l : List String) : a ∈ sortKeys l ↔ a ∈ l := by
  induction l with
  | nil => simp [sortKeys]
  | cons x xs ih =>
      show a ∈ sortedInsert x (sortKeys xs) ↔ _
      simp [mem_sortedInsert, ih]

theorem charListLe_total (l1 l2 : List Char) :
    charListLe l1 l2 = true ∨ charListLe l2 l1 = true := by
  induction l1 generalizing l2 with
  | nil => exact Or.inl rfl
  | cons a as ih =>
      cases l2 with
      | nil => exact Or.inr rfl
      | cons b bs =>
          by_cases hab : a < b
          · exact Or.inl (by simp [charListLe, hab])
          · by_cases hba : b < a
            · exact Or.inr (by simp [charListLe, hba])
            · rcases ih bs with h | h
              · exact Or.inl (by simp [charListLe, hab, hba, h])
              · exact Or.inr (by simp [charListLe, hab, hba, h])

theorem charListLe_trans (l1 l2 l3 : List Char) (h1 : charListLe l1 l2 = true)
    (h2 : charListLe l2 l3 = true) : charListLe l1 l3 = true := by
  induction l1 generalizing l2 l3 with
  | nil => rfl
  | cons a as ih =>
      cases l2 with
      | nil => simp [charListLe] at h1
      | cons b bs =>
          cases l3 with
          | nil => simp [charListLe] at h2
          | cons c cs =>
              simp only [charListLe] at h1 h2 ⊢
              by_cases hab : a < b
              · by_cases hbc : b < c
                · simp [lt_trans hab hbc]
                · by_cases hcb : c < b
                  · simp [hbc, hcb] at h2
                  · have hbc' : b = c := le_antisymm (not_lt.mp hcb) (not_lt.mp hbc)
                    subst hbc'
                    simp [hab]
              · by_cases hba : b < a
                · simp [hab, hba] at h1
                · have hab' : a = b := le_antisymm (not_lt.mp hba) (not_lt.mp hab)
                  subst hab'
                  by_cases hac : a < c
                  · simp [hac]
                  · by_cases hca : c < a
                    · simp [hac, hca] at h2
                    · have hac' : a = c := le_antisymm (not_lt.mp hca) (not_lt.mp hac)
                      subst hac'
                      simp [hac] at h1 h2 ⊢
                      exact ih bs cs h1 h2

theorem strLe_total (a b : String) : strLe a b = true ∨ strLe b a = true :=
  charListLe_total a.toList b.toList

theorem strLe_trans (a b c : String) (h1 : strLe a b = true) (h2 : strLe b c = true) :
    strLe a c = true :=
  charListLe_trans a.toList b.toList c.toList h1 h2

theorem pairwise_sortedInsert (k : String) (l : List String)
    (h : l.Pairwise (fun a b => strLe a b = true)) :
    (sortedInsert k l).Pairwise (fun a b => strLe a b = true) := by
  induction l with
  | nil => simp [sortedInsert]
  | cons x xs ih =>
      rw [List.pairwise_cons] at h
      obtain ⟨hx, hxs⟩ := h
      by_cases hkx : strLe k x = true
      · simp only [sortedInsert, if_pos hkx]
        rw [List.pairwise_cons]
        constructor
        · intro y hy
          rcases List.mem_cons.mp hy with rfl | hy'
          · exact hkx
          · exact strLe_trans k x y hkx (hx y hy')
        · rw [List.pairwise_cons]
          exact ⟨hx, hxs⟩
      · simp only [sortedInsert, if_neg hkx]
        rw [List.pairwise_cons]
        refine ⟨?_, ih hxs⟩
        intro y hy
        rcases (mem_sortedInsert k y xs).mp hy with rfl | hy'
        · rcases strLe_total y x with h1 | h1
          · exact absurd h1 hkx
          · exact h1
        · exact hx y hy'

theorem pairwise_sortKeys (l : List String) :
    (sortKeys l).Pairwise (fun a b => strLe a b = true) := by
  induction l with
  | nil => simp [sortKeys]
  | cons x xs ih =>
      show (sortedInsert x (sortKeys xs)).Pairwise _
      exact pairwise_sortedInsert x (sortKeys xs) ih

/-- The key column of the summary is exactly the sorted distinct key
list. -/
theorem exp_summary_keys (es : List ExpenseEntry) :
    (exp_summary es).map (·.1) = groupKeys (es.map (fun e => (e.category, e.amount))) := by
  simp only [exp_summary, groupbySum, List.map_map]
  exact List.map_id _

/-- The expense list of the spec's `group_by_category` example:
`[("Mess",100), ("Laundry",50), ("Mess",25)]`. -/
def exW8 : List ExpenseEntry :=
  [⟨⟨2025, 1, 1⟩, "Mess", "", 100⟩, ⟨⟨2025, 1, 2⟩, "Laundry", "", 50⟩,
    ⟨⟨2025, 1, 3⟩, "Mess", "", 25⟩]

/-- Claim C8 counterexample: on the spec's example the summary is
`[("Laundry", 50), ("Mess", 125)]` — the sums are right but the keys
come out in ascending sorted order (pandas `groupby` default), not in
first-seen insertion order, so the claimed `{Mess: 125, Laundry: 50}`
ordering is wrong. -/
theorem claim8_counterexample :
    exp_summary exW8 = [("Laundry", 50), ("Mess", 125)] ∧
    exp_summary exW8 ≠ [("Mess", 125), ("Laundry", 50)] := by
  have h : exp_summary exW8 = [("Laundry", 50), ("Mess", 125)] := by
    simp +decide [exp_summary, groupbySum, groupKeys, sortKeys, sortedInsert,
      strLe, charListLe, sumFor, dedupKeys, exW8]
    norm_num
  refine ⟨h, ?_⟩
  rw [h]
  simp

/-- Claim C8 amended: for every expense list, `exp_summary` maps each
category to the sum of its entries' amounts, its key column is exactly
the set of categories occurring in the input, and the keys come out in
ascending lexicographic order (the pandas `groupby` default), not
first-seen order; on the example the result is `{Laundry: 50, Mess: 125}`
with Laundry first. -/
theorem claim8_amended :
    (∀ (es : List ExpenseEntry),
      (∀ (k : String) (v : ℚ), (k, v) ∈ exp_summary es →
        v = ((es.filter (fun e => e.category == k)).map (·.amount)).sum) ∧
      (∀ k : String, k ∈ (exp_summary es).map (·.1) ↔ ∃ e ∈ es, e.category = k) ∧
      ((exp_summary es).map (·.1)).Pairwise (fun a b => strLe a b = true)) ∧
    exp_summary exW8 = [("Laundry", 50), ("Mess", 125)] := by
  constructor
  · intro es
    refine ⟨?_, ?_, ?_⟩
    · intro k v hm
      simp only [exp_summary, groupbySum, List.mem_map] at hm
      obtain ⟨k', _, heq⟩ := hm
      injection heq with h1 h2
      subst h1
      subst h2
      exact sumFor_map es (fun e => e.category) (fun e => e.amount) k'
    · intro k
      rw [exp_summary_keys]
      unfold groupKeys
      rw [mem_sortKeys, mem_dedupKeys]
      simp [List.map_map, List.mem_map]
    · rw [exp_summary_keys]
      unfold groupKeys
      exact pairwise_sortKeys _
  · simp +decide [exp_summary, groupbySum, groupKeys, sortKeys, sortedInsert,
      strLe, charListLe, sumFor, dedupKeys, exW8]
    norm_num

/-- Claim C8 witness: the Laundry sum read off the summary equals the
filtered sum of the Laundry entries. -/
theorem claim8_witness :
    (50 : ℚ) = ((exW8.filter (fun e => e.category == "Laundry")).map (·.amount)).sum :=
  (claim8_amended.1 exW8).1 "Laundry" 50
    (by simp +decide [exp_summary, groupbySum, groupKeys, sortKeys, sortedInsert,
      strLe, charListLe, sumFor, dedupKeys, exW8])

/-! ### Claim C9 -/

theorem lookup_pairs (keys : List String) (f : String → ℚ) (k : String) :
    (keys.map (fun x => (x, f x))).lookup k
      = if k ∈ keys then some (f k) else none := by
  induction keys with
  | nil => simp
  | cons x xs ih =>
      by_cases h : k = x
      · subst h
        simp [lookup_cons]
      · simp [lookup_cons, h, ih]

theorem lookup_groupbySum (prs : List (String × ℚ)) (k : String) :
    (groupbySum prs).lookup k
      = if k ∈ prs.map (·.1) then some (sumFor prs k) else none := by
  unfold groupbySum groupKeys
  rw [lookup_pairs]
  by_cases h : k ∈ prs.map (·.1) <;> simp [mem_sortKeys, mem_dedupKeys, h]

theorem getD_lookup_groupbySum (prs : List (String × ℚ)) (k : String) :
    ((groupbySum prs).lookup k).getD 0 = sumFor prs k := by
  rw [lookup_groupbySum]
  by_cases h : k ∈ prs.map (·.1)
  · simp [h]
  · have hfil : prs.filter (fun p => p.1 == k) = [] := by
      rw [List.filter_eq_nil_iff]
      intro p hp
      simp only [beq_iff_eq]
      intro hc
      exact h (hc ▸ List.mem_map_of_mem (·.1) hp)
    simp [h, sumFor, hfil]

theorem monthAbbr_large (m : Nat) (h : 13 ≤ m) : monthAbbr m = "" := by
  unfold monthAbbr
  rw [if_neg (by omega)]
  exact List.getD_eq_default monthNames "" (by simp [monthNames]; omega)

theorem monthAbbr_inj (m i : Nat) (h1 : 1 ≤ i) (h2 : i ≤ 12) :
    monthAbbr m = monthAbbr i ↔ m = i := by
  constructor
  · intro h
    rcases Nat.lt_or_ge m 13 with hm | hm
    · interval_cases i <;> interval_cases m <;>
        first
          | rfl
          | exact absurd h (by decide)
    · exfalso
      rw [monthAbbr_large m hm] at h
      interval_cases i <;> exact absurd h.symm (by decide)
  · rintro rfl
    rfl

/-- The claim-side trend figure: total revenue recorded in calendar
month `m` of any year. -/
def monthRevenue (entries : List RevenueEntry) (m : Nat) : ℚ :=
  ((entries.filter (fun e => e.date.month == m)).map (·.amount)).sum

/-- The claim-side trend figure: total expenses recorded in calendar
month `m` of any year. -/
def monthExpenses (entries : List ExpenseEntry) (m : Nat) : ℚ :=
  ((entries.filter (fun e => e.date.month == m)).map (·.amount)).sum

/-- The six fixed labels paired with their month numbers. -/
def monthIdx : List (Nat × String) :=
  [(1, "Jan"), (2, "Feb"), (3, "Mar"), (4, "Apr"), (5, "May"), (6, "Jun")]

theorem rev_label_val (entries : List RevenueEntry) (i : Nat) (h1 : 1 ≤ i)
    (h2 : i ≤ 12) :
    ((groupbySum (entries.map (fun e => (monthAbbr e.date.month, e.amount)))).lookup
        (monthAbbr i)).getD 0 = monthRevenue entries i := by
  rw [getD_lookup_groupbySum, sumFor_map, monthRevenue]
  have hf : entries.filter (fun e => monthAbbr e.date.month == monthAbbr i)
      = entries.filter (fun e => e.date.month == i) := by
    apply List.filter_congr
    intro e _
    by_cases h : e.date.month = i
    · simp [h]
    · have hne : monthAbbr e.date.month ≠ monthAbbr i :=
        fun hc => h ((monthAbbr_inj _ _ h1 h2).mp hc)
      simp [h, hne]
  rw [hf]

theorem exp_label_val (entries : List ExpenseEntry) (i : Nat) (h1 : 1 ≤ i)
    (h2 : i ≤ 12) :
    ((groupbySum (entries.map (fun e => (monthAbbr e.date.month, e.amount)))).lookup
        (monthAbbr i)).getD 0 = monthExpenses entries i := by
  rw [getD_lookup_groupbySum, sumFor_map, monthExpenses]
  have hf : entries.filter (fun e => monthAbbr e.date.month == monthAbbr i)
      = entries.filter (fun e => e.date.month == i) := by
    apply List.filter_congr
    intro e _
    by_cases h : e.date.month = i
    · simp [h]
    · have hne : monthAbbr e.date.month ≠ monthAbbr i :=
        fun hc => h ((monthAbbr_inj _ _ h1 h2).mp hc)
      simp [h, hne]
  rw [hf]

theorem monthlyRevSeries_eq (s : LedgerState) :
    monthlyRevSeries s = monthIdx.map (fun mi => (mi.2, monthRevenue s.revenue mi.1)) := by
  unfold monthlyRevSeries
  by_cases hr : s.revenue.isEmpty = true
  · have hnil : s.revenue = [] := List.isEmpty_iff.mp hr
    simp [hr, hnil, monthLabels, monthIdx, monthRevenue]
  · simp only [hr, if_neg, Bool.false_eq_true, not_false_iff, reindexSum,
      monthLabels, monthIdx, List.map_cons, List.map_nil]
    refine List.ext_get? ?_
    intro n
    match n with
    | 0 => exact congrArg some (congrArg _ (rev_label_val s.revenue 1 (by decide) (by decide)))
    | 1 => exact congrArg some (congrArg _ (rev_label_val s.revenue 2 (by decide) (by decide)))
    | 2 => exact congrArg some (congrArg _ (rev_label_val s.revenue 3 (by decide) (by decide)))
    | 3 => exact congrArg some (congrArg _ (rev_label_val s.revenue 4 (by decide) (by decide)))
    | 4 => exact congrArg some (congrArg _ (rev_label_val s.revenue 5 (by decide) (by decide)))
    | 5 => exact congrArg some (congrArg _ (rev_label_val s.revenue 6 (by decide) (by decide)))
    | (n + 6) => rfl

theorem monthlyExpSeries_eq (s : LedgerState) :
    monthlyExpSeries s = monthIdx.map (fun mi => (mi.2, monthExpenses s.expenses mi.1)) := by
  unfold monthlyExpSeries
  by_cases he : s.expenses.isEmpty = true
  · have hnil : s.expenses = [] := List.isEmpty_iff.mp he
    simp [he, hnil, monthLabels, monthIdx, monthExpenses]
  · simp only [he, if_neg, Bool.false_eq_true, not_false_iff, reindexSum,
      monthLabels, monthIdx, List.map_cons, List.map_nil]
    refine List.ext_get? ?_
    intro n
    match n with
    | 0 => exact congrArg some (congrArg _ (exp_label_val s.expenses 1 (by decide) (by decide)))
    | 1 => exact congrArg some (congrArg _ (exp_label_val s.expenses 2 (by decide) (by decide)))
    | 2 => exact congrArg some (congrArg _ (exp_label_val s.expenses 3 (by decide) (by decide)))
    | 3 => exact congrArg some (congrArg _ (exp_label_val s.expenses 4 (by decide) (by decide)))
    | 4 => exact congrArg some (congrArg _ (exp_label_val s.expenses 5 (by decide) (by decide)))
    | 5 => exact congrArg some (congrArg _ (exp_label_val s.expenses 6 (by decide) (by decide)))
    | (n + 6) => rfl

/-- Claim C9: for every ledger state, `compute_monthly_trends` returns,
for each of the six fixed labels Jan..Jun, the sum of amounts of the
entries whose date falls in that calendar month of any year (0 when no
entry matches) — a fixed window, not a rolling six months. -/
theorem claim9_monthly_trend (s : LedgerState) :
    compute_monthly_trends s
      = monthIdx.map
          (fun mi => ⟨mi.2, monthRevenue s.revenue mi.1, monthExpenses s.expenses mi.1⟩) := by
  unfold compute_monthly_trends
  rw [monthlyRevSeries_eq, monthlyExpSeries_eq]
  simp [monthIdx]

/-! ### Claim C7 (spec-modelled Rent Forecaster) -/

theorem line_sum (pts : List (ℚ × ℚ)) (a b : ℚ) (h : ∀ p ∈ pts, p.2 = a * p.1 + b) :
    (pts.map (·.2)).sum = a * (pts.map (·.1)).sum + b * pts.length := by
  induction pts with
  | nil => simp
  | cons p t ih =>
      simp only [List.map_cons, List.sum_cons, List.length_cons]
      rw [h p (List.mem_cons_self p t), ih (fun q hq => h q (List.mem_cons_of_mem p hq))]
      push_cast
      ring

theorem line_mean (pts : List (ℚ × ℚ)) (a b : ℚ) (h : ∀ p ∈ pts, p.2 = a * p.1 + b)
    (hn : ((pts.length : ℚ)) ≠ 0) :
    olsMean (pts.map (·.2)) = a * olsMean (pts.map (·.1)) + b := by
  unfold olsMean
  rw [List.length_map, List.length_map, line_sum pts a b h]
  field_simp

theorem line_cov (pts : List (ℚ × ℚ)) (a b : ℚ) (h : ∀ p ∈ pts, p.2 = a * p.1 + b)
    (hn : ((pts.length : ℚ)) ≠ 0) :
    olsCovariance pts = a * olsVariance pts := by
  unfold olsCovariance olsVariance
  have hyb := line_mean pts a b h hn
  have hmap : pts.map (fun p =>
        (p.1 - olsMean (pts.map (·.1))) * (p.2 - olsMean (pts.map (·.2))))
      = pts.map (fun p =>
        a * ((p.1 - olsMean (pts.map (·.1))) * (p.1 - olsMean (pts.map (·.1))))) := by
    apply List.map_congr_left
    intro p hp
    rw [h p hp, hyb]
    ring
  rw [hmap, List.sum_map_mul_left, mul_div_assoc]

theorem line_fit (pts : List (ℚ × ℚ)) (a b : ℚ) (hlen : 2 ≤ pts.length)
    (h : ∀ p ∈ pts, p.2 = a * p.1 + b) (hvar : olsVariance pts ≠ 0) :
    olsFit pts = some (a, b) := by
  have hn : ((pts.length : ℚ)) ≠ 0 := by
    have hlen0 : pts.length ≠ 0 := by omega
    exact_mod_cast Nat.cast_ne_zero.mpr hlen0
  have hyb := line_mean pts a b h hn
  have hslope : olsCovariance pts / olsVariance pts = a := by
    rw [line_cov pts a b h hn, mul_div_assoc, div_self hvar, mul_one]
  unfold olsFit
  rw [if_neg (by omega)]
  refine congrArg some (Prod.ext ?_ ?_)
  · exact hslope
  · show olsMean (pts.map (·.2))
        - olsCovariance pts / olsVariance pts * olsMean (pts.map (·.1)) = b
    rw [hslope, hyb]
    ring

/-- Claim C7: fitting the spec's closed-form OLS on any history whose
points lie exactly on the line `y = 2x + 100` (with at least two points
and nonzero month variance) recovers slope 2 and intercept 100, and
predicting months 13..18 returns exactly 126, 128, 130, 132, 134, 136
in input order. -/
theorem claim7_forecast (pts : List (ℚ × ℚ)) (hlen : 2 ≤ pts.length)
    (hline : ∀ p ∈ pts, p.2 = 2 * p.1 + 100) (hvar : olsVariance pts ≠ 0) :
    olsFit pts = some (2, 100) ∧
    olsPredict 2 100 [13, 14, 15, 16, 17, 18] = [126, 128, 130, 132, 134, 136] := by
  refine ⟨line_fit pts 2 100 hlen hline hvar, ?_⟩
  norm_num [olsPredict]

/-- Twelve history points on the line `y = 2x + 100`. -/
def ptsW7 : List (ℚ × ℚ) :=
  [(1, 102), (2, 104), (3, 106), (4, 108), (5, 110), (6, 112),
    (7, 114), (8, 116), (9, 118), (10, 120), (11, 122), (12, 124)]

/-- Claim C7 witness: the twelve-point synthetic history recovers the
exact line. -/
theorem claim7_witness : olsFit ptsW7 = some (2, 100) :=
  (claim7_forecast ptsW7 (by norm_num [ptsW7])
    (by norm_num [ptsW7, List.forall_mem_cons])
    (by norm_num [olsVariance, olsMean, ptsW7])).1

end HostelLedger
